import Mathlib

/- Verification of the rproxy caching proxy (src/conn.rs, src/fetch.rs, src/main.rs)
   against its natural-language specification.

   Strings are modelled as `List Char`.  Rust string slicing `&value[a..b]`
   panics when `a > b`; every function that can reach such a slice is embedded
   with an `Option` result, `none` meaning the Rust code panics.  All other
   functions are total, exactly as in the source. -/

set_option maxHeartbeats 1000000

/-- First index at which character `c` occurs in the list (Rust `str::find(char)`
over the characters of the string; all uses in conn.rs search for ASCII
characters, so char indices and Rust byte indices agree on the panic-relevant
arithmetic). -/
def fCharIdx (c : Char) : List Char → Option Nat
  | [] => none
  | x :: xs => if x = c then some 0 else (fCharIdx c xs).map (· + 1)

/-- First index at which `pat` occurs as a contiguous substring
(Rust `str::find(&str)`). -/
def fSubIdx (pat : List Char) : List Char → Option Nat
  | [] => if pat.isPrefixOf ([] : List Char) then some 0 else none
  | x :: xs => if pat.isPrefixOf (x :: xs) then some 0 else (fSubIdx pat xs).map (· + 1)

/-- Numeric value of a decimal digit string (most significant digit first). -/
def digitsVal (ds : List Char) : Nat :=
  ds.foldl (fun a c => a * 10 + (c.toNat - '0'.toNat)) 0

/-- Rust `str::parse::<u16>()`: optional leading `+`, then one or more ASCII
digits whose value fits in a `u16`; anything else is `Err`. -/
def parseU16 (s : List Char) : Option Nat :=
  let t := if s.head? = some '+' then s.tail else s
  if t ≠ [] ∧ t.all Char.isDigit ∧ digitsVal t ≤ 65535 then some (digitsVal t) else none

/-- Rust `str::parse::<u64>()`: optional leading `+`, then one or more ASCII
digits whose value fits in a `u64`. -/
def parseU64 (s : List Char) : Option Nat :=
  let t := if s.head? = some '+' then s.tail else s
  if t ≠ [] ∧ t.all Char.isDigit ∧ digitsVal t ≤ 18446744073709551615 then
    some (digitsVal t)
  else none

/-- The classification of a `Uri` (conn.rs, `enum UriKind`). -/
inductive UriKind where
  | AbsoluteAddress
  | AbsolutePath
  | RelativeAddress
  | Invalid
deriving DecidableEq, Repr

/-- The `Uri` struct of conn.rs: the original string plus the derived slices.
The borrowed `&str` fields are embedded as owned character lists. -/
structure EUri where
  uri : List Char
  scheme : Option (List Char)
  host : Option (List Char)
  port : Option Nat
  path : Option (List Char)
  query : Option (List Char)
  path_and_query : Option (List Char)
deriving DecidableEq, Repr

namespace Uri

/-- conn.rs `find_scheme` (inside `update_references`): locate the literal
`"://"` and return everything up to and including it. -/
def find_scheme (value : List Char) : Option (List Char) :=
  match fSubIdx "://".data value with
  | none => none
  | some i => some (value.take (i + 3))

/-- conn.rs `find_host`: no host for a leading-slash string; otherwise the token
between the scheme (or the start) and the first `:` or `/`, accepted only when
it contains a `.`. -/
def find_host (value : List Char) : Option (List Char) :=
  if value.head? = some '/' then none
  else
    let start := match fSubIdx "://".data value with
      | none => 0
      | some x => x + 3
    let stop := match fCharIdx ':' (value.drop start) with
      | none =>
        match fCharIdx '/' (value.drop start) with
        | none => value.length
        | some s => s + start
      | some s => s + start
    let slice := (value.drop start).take (stop - start)
    if '.' ∈ slice then some slice else none

/-- conn.rs `scheme_to_port`: the scheme-inferred default port. -/
def scheme_to_port (value : List Char) : Option Nat :=
  match find_scheme value with
  | none => none
  | some s =>
    if s = "http://".data then some 80
    else if s = "https://".data then some 443
    else none

/-- conn.rs `find_port`: an explicit `:` before the first `/` after the scheme
yields the parse of the digits behind it; only when there is no `:` at all is
the scheme default consulted. -/
def find_port (value : List Char) : Option Nat :=
  let start := match fSubIdx "://".data value with
    | none => 0
    | some x => x + 3
  let stop := match fCharIdx '/' (value.drop start) with
    | none => value.length
    | some x => x + start
  match fCharIdx ':' ((value.drop start).take (stop - start)) with
  | none => scheme_to_port value
  | some p => parseU16 ((value.drop (p + start + 1)).take (stop - (p + start + 1)))

/-- conn.rs `slice_path`: returns `(path, query, path_and_query)`.  The query
position is `value.find('?')` over the whole string while the path start is the
first `/` after the scheme, so the Rust slice `&value[start..end]` panics
(`none` here) whenever a `?` occurs before the first `/`. -/
def slice_path (value : List Char) :
    Option (Option (List Char) × Option (List Char) × Option (List Char)) :=
  let startOpt : Option Nat :=
    if value.head? = some '/' then some 0
    else
      let scheme := match fSubIdx "://".data value with
        | none => 0
        | some x => x + 3
      match fCharIdx '/' (value.drop scheme) with
      | none => none
      | some x => some (x + scheme)
  match startOpt with
  | none => some (none, none, none)
  | some start =>
    let stopQuery : Nat × Option (List Char) :=
      match fCharIdx '?' value with
      | none => (value.length, none)
      | some x => (x, some (value.drop (x + 1)))
    if start ≤ stopQuery.1 then
      some (some ((value.drop start).take (stopQuery.1 - start)),
            stopQuery.2,
            some (value.drop start))
    else none

/-- conn.rs `Uri::new` / `update_references`: computes all derived fields.
`none` models the panic that `slice_path` can raise. -/
def new (uri : List Char) : Option EUri :=
  match slice_path uri with
  | none => none
  | some (p, q, pq) =>
    some { uri := uri
           scheme := find_scheme uri
           host := find_host uri
           port := find_port uri
           path := p
           query := q
           path_and_query := pq }

end Uri

/-- conn.rs `Uri::kind`: classification in priority order. -/
def EUri.kind (u : EUri) : UriKind :=
  if (u.scheme.isSome || u.port.isSome) && u.host.isSome && u.path.isSome then
    .AbsoluteAddress
  else if u.host.isSome && u.path.isSome then
    .RelativeAddress
  else if (u.path.any fun p => p.head? == some '/') then
    .AbsolutePath
  else .Invalid

/-- conn.rs `Uri::host_and_port`: `"{host}:{port}"` when both are present. -/
def EUri.host_and_port (u : EUri) : Option (List Char) :=
  match u.host, u.port with
  | some h, some p => some (h ++ ':' :: Nat.toDigits 10 p)
  | _, _ => none

/-- conn.rs `Uri::same_host_as`. -/
def EUri.same_host_as (u other : EUri) : Bool :=
  other.kind = .AbsolutePath || (u.host = other.host && u.port = other.port)

/-- Lower-casing of a character string, as Rust `str::to_lowercase` behaves on
the ASCII header names and values used here. -/
def lowerChars (s : List Char) : List Char := s.map Char.toLower

/-- Modelled from the spec: the header collaborator (crate::http, not under
src/) exposes "an ordered case-insensitive header mapping" with lookup, remove
and insert (spec section 6).  Embedded as an association list whose key
comparisons are case-insensitive. -/
abbrev EHeaders := List (List Char × List Char)

/-- Modelled from the spec: case-insensitive header lookup. -/
def hget : EHeaders → List Char → Option (List Char)
  | [], _ => none
  | p :: t, k => if lowerChars p.1 = lowerChars k then some p.2 else hget t k

/-- Modelled from the spec: case-insensitive header removal. -/
def hremove : EHeaders → List Char → EHeaders
  | [], _ => []
  | p :: t, k => if lowerChars p.1 = lowerChars k then hremove t k else p :: hremove t k

/-- Modelled from the spec: case-insensitive header insertion, replacing the
existing entry in place or appending a fresh one. -/
def hinsert : EHeaders → List Char → List Char → EHeaders
  | [], k, v => [(k, v)]
  | p :: t, k, v => if lowerChars p.1 = lowerChars k then (p.1, v) :: t else p :: hinsert t k v

/-- The request method; fetch.rs only ever constructs `Get`. -/
inductive EMethod where
  | Get
  | Other
deriving DecidableEq, Repr

/-- The client request header consumed by fetch.rs (crate::http
`HttpRequestHeader`): method, raw request target, version string, headers. -/
structure EHttpRequestHeader where
  method : EMethod
  request : List Char
  version : List Char
  headers : EHeaders
deriving DecidableEq, Repr

/-- The outgoing request fetch.rs builds (fetch.rs lines 184-194); its
`request` field is a `Uri` parsed from `path_and_query`. -/
structure EFetchRequestHeader where
  method : EMethod
  request : EUri
  version : List Char
  headers : EHeaders
deriving DecidableEq, Repr

/-- The origin response header (crate::http `HttpResponseHeader`): numeric
status code and headers. -/
structure EHttpResponseHeader where
  status : Nat
  headers : EHeaders
deriving DecidableEq, Repr

/-- The `ConnectionReturn` disposition fetch.rs computes: keep the client
connection, close it, or (internally) follow a redirect. -/
inductive ConnectionReturnE where
  | KeepAlive
  | Close
  | Redirect (location : List Char)
deriving DecidableEq, Repr

/-- Modelled from the spec: `keep_alive_if` (crate::http, not under src/)
decides keep-alive "by the client's own request semantics (e.g. `Connection`
header / HTTP version)" (spec sections 4.4 and 6). -/
def keep_alive_if (client : EHttpRequestHeader) : ConnectionReturnE :=
  if client.version = "HTTP/1.1".data ∧ hget client.headers "Connection".data ≠ some "close".data
  then .KeepAlive
  else .Close

/-- conn.rs / fetch.rs `FlightState`: how the in-flight body is framed. -/
inductive FlightStateE where
  | Chunks
  | Length (n : Nat)
deriving DecidableEq, Repr

/-- Modelled from the spec: the Flight Registry's map, keyed by cache-file
path; `takeoff` "registers that a fetch writing to cache key `key` is using
framing `state`" (spec section 4.3).  Map insertion replaces an existing entry
for the key. -/
def takeoff : List (List Char × FlightStateE) → List Char → FlightStateE →
    List (List Char × FlightStateE)
  | [], key, st => [(key, st)]
  | p :: t, key, st => if p.1 = key then (p.1, st) :: t else p :: takeoff t key st

/-- fetch.rs lines 184-194: the outgoing origin request.  Method is fixed to
`Get`; the target is `Uri::from(path_and_query)`; the headers are the client's
with `Range` removed and `Host` inserted as the bare `host` string taken from
`uri.host` (fetch.rs lines 160-170 and 191).  `none` models a panic inside
`Uri::from`. -/
def buildFetchRequest (host pq : List Char) (client : EHttpRequestHeader) :
    Option EFetchRequestHeader :=
  match Uri.new pq with
  | none => none
  | some target =>
    some { method := .Get
           request := target
           version := client.version
           headers := hinsert (hremove client.headers "Range".data) "Host".data host }

/-- Result of the dual-sink body copy: final sink liveness flags and the body
bytes each sink actually received. -/
structure CopyOut where
  write_file : Bool
  write_stream : Bool
  fileBytes : Nat
  clientBytes : Nat
deriving DecidableEq, Repr

/-- Modelled from the spec: the body-transfer collaborator
(`fetch_and_serve_chunk` / `fetch_and_serve_known_length` in crate::http, not
under src/).  Spec sections 4.4-6: each segment is offered to both live sinks
before the next is read, a write failure permanently disables only the failing
sink, the copy stops early once both sinks are dead, and the updated liveness
flags are returned.  `fileFail i` / `clientFail i` say whether the write of
segment `i` to that sink fails. -/
def dualServe (fileFail clientFail : Nat → Bool) :
    List Nat → Nat → Bool → Bool → CopyOut
  | [], _, wf, ws => ⟨wf, ws, 0, 0⟩
  | s :: rest, i, wf, ws =>
    if !wf && !ws then ⟨wf, ws, 0, 0⟩
    else
      let wf2 := wf && !(fileFail i)
      let ws2 := ws && !(clientFail i)
      let r := dualServe fileFail clientFail rest (i + 1) wf2 ws2
      ⟨r.write_file, r.write_stream,
       (if wf2 then s else 0) + r.fileBytes,
       (if ws2 then s else 0) + r.clientBytes⟩

/-- fetch.rs `fetch_cache_policy` (lines 370-378): `(write_file,
write_stream)` from the `Cache-Control` header. -/
def fetch_cache_policy (resp : EHttpResponseHeader) : Bool × Bool :=
  match hget resp.headers "Cache-Control".data with
  | none => (true, true)
  | some v =>
    if lowerChars v = "no-store".data ∨ lowerChars v = "private".data then (false, true)
    else (true, true)

/-- Environment of one `fetch` invocation: the outcome of each I/O operation
the function performs, in source order. -/
structure FetchEnv where
  genOk : Bool
  originWriteOk : Bool
  originResponse : Option EHttpResponseHeader
  parentOk : Bool
  createDirOk : Bool
  createFileOk : Bool
  clientHeaderWriteOk : Bool
  bodySegs : List Nat
  fileFail : Nat → Bool
  clientFail : Nat → Bool
  passWriteOk : Bool

/-- Observable outcome of one `fetch` invocation: the returned disposition,
the status codes of the headers written to the client in order, the flight
registry afterwards, whether a file is left at the cache path, the body bytes
each sink received, and whether the origin header was forwarded verbatim. -/
structure FetchOut where
  ret : ConnectionReturnE
  sent : List Nat
  flights : List (List Char × FlightStateE)
  fileExists : Bool
  fileBytes : Nat
  clientBodyBytes : Nat
  passedThrough : Bool
deriving Repr, DecidableEq

/-- Modelled from the spec: `respond_with` (crate::http, not under src/) sends
a bodyless status-line response and reports the requested disposition. -/
def respond_with (pre : List Nat) (disposition : ConnectionReturnE) (status : Nat)
    (flights : List (List Char × FlightStateE)) (fileExists : Bool) : FetchOut :=
  { ret := disposition
    sent := pre ++ [status]
    flights := flights
    fileExists := fileExists
    fileBytes := 0
    clientBodyBytes := 0
    passedThrough := false }

/-- fetch.rs lines 345-368: after the body copy, shut the streams down, then
either keep the cache file (setting its mtime when possible), or — when the
file sink is no longer live but a file exists at the cache path — delete the
partial file and close the client connection. -/
def fetch_finish (client : EHttpRequestHeader) (cp : CopyOut)
    (flights : List (List Char × FlightStateE)) (isFile : Bool) : FetchOut :=
  if cp.write_file then
    { ret := keep_alive_if client
      sent := [200]
      flights := flights
      fileExists := isFile
      fileBytes := cp.fileBytes
      clientBodyBytes := cp.clientBytes
      passedThrough := false }
  else if isFile then
    { ret := .Close
      sent := [200]
      flights := flights
      fileExists := false
      fileBytes := cp.fileBytes
      clientBodyBytes := cp.clientBytes
      passedThrough := false }
  else
    { ret := keep_alive_if client
      sent := [200]
      flights := flights
      fileExists := isFile
      fileBytes := cp.fileBytes
      clientBodyBytes := cp.clientBytes
      passedThrough := false }

/-- fetch.rs `fetch` (lines 148-406): one exchange with the origin for the
current URI.  Mirrors the source control flow exactly; in particular the
status dispatch uses the source's exclusive range patterns
`301..303 | 307..308` (line 380), i.e. 301, 302 and 307 only.  `none` models a
panic (only reachable through `Uri::from(path_and_query)` on a string not
starting with `/`). -/
def fetchE (env : FetchEnv) (flights0 : List (List Char × FlightStateE))
    (client : EHttpRequestHeader) (uri : EUri) (cachePath : List Char) :
    Option FetchOut :=
  match uri.host with
  | none => some (respond_with [] (keep_alive_if client) 400 flights0 false)
  | some host =>
  match uri.path_and_query with
  | none => some (respond_with [] (keep_alive_if client) 400 flights0 false)
  | some pq =>
  match buildFetchRequest host pq client with
  | none => none
  | some _fr =>
  if !env.genOk then
    some (respond_with [] (keep_alive_if client) 500 flights0 false)
  else if !env.originWriteOk then
    some (respond_with [] (keep_alive_if client) 500 flights0 false)
  else
  match env.originResponse with
  | none => some (respond_with [] (keep_alive_if client) 502 flights0 false)
  | some resp =>
  if resp.status = 200 then
    if !env.parentOk then
      some (respond_with [] (keep_alive_if client) 500 flights0 false)
    else if !env.createDirOk then
      some (respond_with [] (keep_alive_if client) 500 flights0 false)
    else if !env.createFileOk then
      some (respond_with [] (keep_alive_if client) 500 flights0 false)
    else if !env.clientHeaderWriteOk then
      some { ret := .Close, sent := [], flights := flights0, fileExists := true
             fileBytes := 0, clientBodyBytes := 0, passedThrough := false }
    else
      let policy := fetch_cache_policy resp
      match hget resp.headers "Transfer-Encoding".data with
      | some v =>
        if lowerChars v = "chunked".data then
          let fl := takeoff flights0 cachePath .Chunks
          let cp := dualServe env.fileFail env.clientFail env.bodySegs 0 policy.1 policy.2
          some (fetch_finish client cp fl true)
        else
          some (respond_with [200] (keep_alive_if client) 400 flights0 true)
      | none =>
        match hget resp.headers "Content-Length".data with
        | none => some (respond_with [200] (keep_alive_if client) 500 flights0 true)
        | some s =>
          match parseU64 s with
          | none => some (respond_with [200] (keep_alive_if client) 400 flights0 true)
          | some n =>
            let fl := takeoff flights0 cachePath (.Length n)
            let cp := dualServe env.fileFail env.clientFail env.bodySegs 0 policy.1 policy.2
            some (fetch_finish client cp fl true)
  else if (301 ≤ resp.status ∧ resp.status < 303) ∨
          (307 ≤ resp.status ∧ resp.status < 308) then
    match hget resp.headers "Location".data with
    | none => some (respond_with [] (keep_alive_if client) 400 flights0 false)
    | some url =>
      some { ret := .Redirect url, sent := [], flights := flights0, fileExists := false
             fileBytes := 0, clientBodyBytes := 0, passedThrough := false }
  else
    some { ret := if env.passWriteOk then keep_alive_if client else .Close
           sent := [resp.status]
           flights := flights0
           fileExists := false
           fileBytes := 0
           clientBodyBytes := 0
           passedThrough := true }

/-- A keep-alive HTTP/1.1 client request used as a concrete fixture. -/
def clientKA : EHttpRequestHeader :=
  { method := .Get
    request := "http://example.com/a".data
    version := "HTTP/1.1".data
    headers := [] }

/-- The parse of `http://example.com/a`, used as a concrete current URI. -/
def uriA : EUri :=
  { uri := "http://example.com/a".data
    scheme := some "http://".data
    host := some "example.com".data
    port := some 80
    path := some "/a".data
    query := none
    path_and_query := some "/a".data }

/-- A fetch environment in which every I/O operation succeeds and the origin
sends no response header yet (fixtures override the relevant fields). -/
def envBase : FetchEnv :=
  { genOk := true
    originWriteOk := true
    originResponse := none
    parentOk := true
    createDirOk := true
    createFileOk := true
    clientHeaderWriteOk := true
    bodySegs := []
    fileFail := fun _ => false
    clientFail := fun _ => false
    passWriteOk := true }

/-- Outcome of the fetch.rs `fetch_and_serve_file` redirect loop: the final
disposition, loop-level statuses sent to the client, the final redirect
history, and how many times the inner `fetch` ran. -/
structure ServeLoopOut where
  ret : ConnectionReturnE
  sent : List Nat
  redirects : List (List Char)
  fetches : Nat
deriving DecidableEq, Repr

/-- fetch.rs lines 68-146: the redirect loop.  `origin u` abstracts the result
of one inner `fetch` against the current target `u` (the inner fetch's own
client-side effects are modelled by `fetchE` separately); `reconnectOk u` is
whether `FetchRequest::redirect` to `u` succeeds.  On a `Redirect(r)` result
the source first checks `redirects.len() > 5` (respond 500, close), then
`redirects.contains(&r)` (respond 500, close), otherwise pushes `r` and loops
against it. -/
def serveLoop (origin : List Char → ConnectionReturnE)
    (reconnectOk : List Char → Bool) (redirects : List (List Char)) : ServeLoopOut :=
  match origin (redirects.getLastD []) with
  | .Redirect r =>
    if redirects.length > 5 then
      { ret := .Close, sent := [500], redirects := redirects, fetches := 1 }
    else if r ∈ redirects then
      { ret := .Close, sent := [500], redirects := redirects, fetches := 1 }
    else if reconnectOk r then
      let rec2 := serveLoop origin reconnectOk (redirects ++ [r])
      { rec2 with fetches := rec2.fetches + 1 }
    else
      { ret := .Close, sent := [500], redirects := redirects ++ [r], fetches := 1 }
  | x => { ret := x, sent := [], redirects := redirects, fetches := 1 }
termination_by 6 - redirects.length
decreasing_by simp_wf; omega

/-- fetch.rs lines 24-66: the prelude of `fetch_and_serve_file`: build the
`FetchRequest` and connect (failure of either responds 500 and closes), then
run the loop with the history seeded with the original request target. -/
def fetch_and_serve_fileE (connectOk : Bool) (origin : List Char → ConnectionReturnE)
    (reconnectOk : List Char → Bool) (uri0 : List Char) : ServeLoopOut :=
  if connectOk then serveLoop origin reconnectOk [uri0]
  else { ret := .Close, sent := [500], redirects := [], fetches := 0 }

/-- The two sinks of the main.rs copy loop. -/
inductive SinkE where
  | file
  | client
deriving DecidableEq, Repr

/-- One write attempt of the main.rs copy loop: segment index, sink, and
whether the write succeeded. -/
structure WriteEv where
  idx : Nat
  sink : SinkE
  ok : Bool
deriving DecidableEq, Repr

/-- Outcome of the main.rs copy loop, with the attempt log. -/
structure MainCopyOut where
  write_file : Bool
  write_stream : Bool
  fileBytes : Nat
  clientBytes : Nat
  evs : List WriteEv
deriving DecidableEq, Repr

/-- main.rs lines 312-355: the inline dual-sink copy loop of the older
`fetch_and_serve_file`.  In state (true, true) both writes are attempted
(`join!`) and the arm `(Err(_), _)` is matched before `(_, Err(_))`, so when
both fail on the same segment only `write_file` is cleared and `write_stream`
stays true; in the degraded states a failure breaks out of the loop without
touching the flags.  `ff i` / `cf i` say whether the write of segment `i` to
the file / client fails. -/
def mainCopy (ff cf : Nat → Bool) : List Nat → Nat → Bool → Bool → MainCopyOut
  | [], _, wf, ws => ⟨wf, ws, 0, 0, []⟩
  | s :: rest, i, wf, ws =>
    match wf, ws with
    | true, true =>
      let fOk := !(ff i)
      let cOk := !(cf i)
      let wf2 := fOk
      let ws2 := if fOk then cOk else true
      let r := mainCopy ff cf rest (i + 1) wf2 ws2
      ⟨r.write_file, r.write_stream,
       (if fOk then s else 0) + r.fileBytes,
       (if cOk then s else 0) + r.clientBytes,
       ⟨i, .file, fOk⟩ :: ⟨i, .client, cOk⟩ :: r.evs⟩
    | true, false =>
      if ff i then ⟨true, false, 0, 0, [⟨i, .file, false⟩]⟩
      else
        let r := mainCopy ff cf rest (i + 1) true false
        ⟨r.write_file, r.write_stream, s + r.fileBytes, r.clientBytes,
         ⟨i, .file, true⟩ :: r.evs⟩
    | false, true =>
      if cf i then ⟨false, true, 0, 0, [⟨i, .client, false⟩]⟩
      else
        let r := mainCopy ff cf rest (i + 1) false true
        ⟨r.write_file, r.write_stream, r.fileBytes, s + r.clientBytes,
         ⟨i, .client, true⟩ :: r.evs⟩
    | false, false => ⟨false, false, 0, 0, []⟩

/-- The marking discipline the spec requires of the dual-sink copy: once a
sink's write has failed, no later segment is attempted on that sink. -/
def marksDeadBeforeNext (evs : List WriteEv) : Prop :=
  ∀ e1 ∈ evs, ∀ e2 ∈ evs, e1.sink = e2.sink → e1.ok = false → e2.idx ≤ e1.idx

instance (evs : List WriteEv) : Decidable (marksDeadBeforeNext evs) := by
  unfold marksDeadBeforeNext
  infer_instance

/-- Modelled from the spec: flight retirement (spec section 4.3).  A flight's
registration is removed when the owning fetch finishes, so the key becomes
available again. -/
def retire : List (List Char × FlightStateE) → List Char →
    List (List Char × FlightStateE)
  | [], _ => []
  | p :: t, key => if p.1 = key then retire t key else p :: retire t key

/-- Phase of one client-handler task, in the order fetch.rs performs the
operations: `FetchRequest::from_uri` and `connect` run at lines 34-63 before
any registry access; `takeoff` runs only inside the 200 branch of `fetch`
(lines 277-331), after the origin connection already exists and the request
has been exchanged; retirement (spec section 4.3) ends the flight. -/
inductive FPhase where
  | idle
  | connected
  | tookOff
  | landed
deriving DecidableEq, Repr

/-- Joint state of two concurrent handler tasks fetching the same cache key,
plus the shared Flight Registry (modelled from the spec, sections 3 and
4.3). -/
structure FSys where
  t1 : FPhase
  t2 : FPhase
  reg : List (List Char × FlightStateE)
deriving DecidableEq, Repr

/-- Whether a task in this phase holds an open origin connection: from the
`connect` in fetch.rs lines 34-63 until its fetch finishes. -/
def originConn : FPhase → Bool
  | .connected => true
  | .tookOff => true
  | _ => false

/-- Interleaving steps of the two tasks, each following fetch.rs's own order:
connect first (no registry consultation), then take off, then land.  `st1`,
`st2` are the framings the two fetches register. -/
inductive FStep (key : List Char) (st1 st2 : FlightStateE) : FSys → FSys → Prop where
  | connect1 (p2 : FPhase) (reg : List (List Char × FlightStateE)) :
      FStep key st1 st2 ⟨.idle, p2, reg⟩ ⟨.connected, p2, reg⟩
  | connect2 (p1 : FPhase) (reg : List (List Char × FlightStateE)) :
      FStep key st1 st2 ⟨p1, .idle, reg⟩ ⟨p1, .connected, reg⟩
  | takeoff1 (p2 : FPhase) (reg : List (List Char × FlightStateE)) :
      FStep key st1 st2 ⟨.connected, p2, reg⟩ ⟨.tookOff, p2, takeoff reg key st1⟩
  | takeoff2 (p1 : FPhase) (reg : List (List Char × FlightStateE)) :
      FStep key st1 st2 ⟨p1, .connected, reg⟩ ⟨p1, .tookOff, takeoff reg key st2⟩
  | land1 (p2 : FPhase) (reg : List (List Char × FlightStateE)) :
      FStep key st1 st2 ⟨.tookOff, p2, reg⟩ ⟨.landed, p2, retire reg key⟩
  | land2 (p1 : FPhase) (reg : List (List Char × FlightStateE)) :
      FStep key st1 st2 ⟨p1, .tookOff, reg⟩ ⟨p1, .landed, retire reg key⟩

-- The unit tests of conn.rs, replayed against the embedding.

example : Uri.new "http://example.com/path".data =
    some { uri := "http://example.com/path".data
           scheme := some "http://".data
           host := some "example.com".data
           port := some 80
           path := some "/path".data
           query := none
           path_and_query := some "/path".data } := by decide

example : Uri.new "http://example.com/path?query=something".data =
    some { uri := "http://example.com/path?query=something".data
           scheme := some "http://".data
           host := some "example.com".data
           port := some 80
           path := some "/path".data
           query := some "query=something".data
           path_and_query := some "/path?query=something".data } := by decide

example : Uri.new "https://example.com:8443/path?query=something".data =
    some { uri := "https://example.com:8443/path?query=something".data
           scheme := some "https://".data
           host := some "example.com".data
           port := some 8443
           path := some "/path".data
           query := some "query=something".data
           path_and_query := some "/path?query=something".data } := by decide

example : (Uri.new "example.com/path?query=something".data).map EUri.kind =
    some .RelativeAddress := by decide

example : (Uri.new "/path/to/resource?query=something".data).map (fun u =>
    (u.kind, u.path, u.query)) =
    some (.AbsolutePath, some "/path/to/resource".data,
          some "query=something".data) := by decide

example : (Uri.new "not_a_valid_uri".data).map EUri.kind = some .Invalid := by decide

example : Uri.new "not_a_valid_uri".data =
    some { uri := "not_a_valid_uri".data
           scheme := none, host := none, port := none
           path := none, query := none, path_and_query := none } := by decide

/-- C1: the spec claims `Uri` parsing never fails on any input.  The code
violates this: in `slice_path` the query position is searched in the whole
string while the path start is the first `/`, so for an input whose `?`
precedes the first `/` the Rust slice `&value[start..end]` has `start > end`
and panics.  This theorem evaluates the embedded parser at such an input:
`none` is the panic. -/
theorem c1_slice_path_panics_on_query_before_slash :
    Uri.new "a.com?q/p".data = none ∧ Uri.slice_path "a.com?q/p".data = none := by
  decide

/-- When `c` does not occur in `xs`, searching `xs ++ ys` is searching `ys`
shifted by `xs.length`. -/
theorem fCharIdx_append_not_mem (c : Char) (xs ys : List Char) (h : c ∉ xs) :
    fCharIdx c (xs ++ ys) = (fCharIdx c ys).map (· + xs.length) := by
  induction xs with
  | nil => simp [Option.map_map]
  | cons x xs ih =>
    simp only [List.mem_cons, not_or] at h
    simp only [List.cons_append, fCharIdx]
    rw [if_neg (fun hh => h.1 hh.symm)]
    simp only [List.append_eq]
    rw [ih h.2]
    cases fCharIdx c ys <;> simp [Nat.add_assoc, Nat.add_comm 1 xs.length]

/-- A nonempty all-digit string parses as its decimal value when it fits
in a `u16`. -/
theorem parseU16_all_digits (ds : List Char) (h0 : ds ≠ [])
    (h1 : ∀ c ∈ ds, c.isDigit) (h2 : digitsVal ds ≤ 65535) :
    parseU16 ds = some (digitsVal ds) := by
  have hplus : ds.head? ≠ some '+' := by
    cases ds with
    | nil => simp
    | cons d r =>
      have := h1 d (List.mem_cons_self d r)
      simp only [List.head?_cons, ne_eq, Option.some.injEq]
      intro hd
      rw [hd] at this
      simp [Char.isDigit] at this
  simp only [parseU16, if_neg hplus]
  rw [if_pos ⟨h0, List.all_eq_true.mpr (fun c hc => by simpa using h1 c hc), h2⟩]

/-- Characters of an all-digit string are never `'/'`, `'?'` or `':'`. -/
theorem digit_not_special (ds : List Char) (h1 : ∀ c ∈ ds, c.isDigit) (c : Char)
    (hc : ¬ c.isDigit) : c ∉ ds := fun hmem => hc (h1 c hmem)

/-- C9: an explicit `:NNNN` port between host and path always becomes the
`port` field, for every digit string that fits a `u16`; the scheme default is
used only when no explicit port exists, and (second conjunct) a scheme whose
default differs does not override an explicit port. -/
theorem c9_explicit_port_never_overridden :
    (∀ ds : List Char, ds ≠ [] → (∀ c ∈ ds, c.isDigit) → digitsVal ds ≤ 65535 →
      ∃ u : EUri,
        Uri.new ("https://example.com:".data ++ (ds ++ "/path?q=1".data)) = some u ∧
        u.port = some (digitsVal ds) ∧ u.scheme = some "https://".data ∧
        u.kind = .AbsoluteAddress) ∧
    (Uri.new "http://example.com:8443/p".data).map EUri.port = some (some 8443) := by
  constructor
  · intro ds h0 h1 h2
    have hslash : '/' ∉ ds := digit_not_special ds h1 '/' (by decide)
    have hquest : '?' ∉ ds := digit_not_special ds h1 '?' (by decide)
    set value := "https://example.com:".data ++ (ds ++ "/path?q=1".data) with hval
    have hsub : fSubIdx "://".data value = some 5 := by
      simp [hval, fSubIdx, List.isPrefixOf]
    have hdrop8 : value.drop 8 = "example.com:".data ++ (ds ++ "/path?q=1".data) := rfl
    have hcolon : fCharIdx ':' (value.drop 8) = some 11 := by
      rw [hdrop8]; simp [fCharIdx]
    have hslashidx : fCharIdx '/' (value.drop 8) = some (ds.length + 12) := by
      rw [hdrop8]
      rw [fCharIdx_append_not_mem '/' _ _ (by decide)]
      rw [fCharIdx_append_not_mem '/' _ _ hslash]
      rw [show fCharIdx '/' "/path?q=1".data = some 0 from by decide]
      simp only [Option.map_some', Option.some.injEq, List.length_cons, List.length_nil]
      omega
    have hquestidx : fCharIdx '?' value = some (ds.length + 25) := by
      rw [hval]
      rw [fCharIdx_append_not_mem '?' _ _ (by decide)]
      rw [fCharIdx_append_not_mem '?' _ _ hquest]
      rw [show fCharIdx '?' "/path?q=1".data = some 5 from by decide]
      simp only [Option.map_some', Option.some.injEq, List.length_cons, List.length_nil]
      omega
    have hhead : value.head? = some 'h' := rfl
    have hassoc : value = ("https://example.com:".data ++ ds) ++ "/path?q=1".data := by
      rw [hval, List.append_assoc]
    have hgen : ∀ (A B : List Char) (n : Nat), (A ++ B).drop (A.length + n) = B.drop n := by
      intro A B n
      simp [List.drop_append_eq_append_drop]
    have hscheme : Uri.find_scheme value = some "https://".data := by
      simp only [Uri.find_scheme, hsub]
      rfl
    have hslice11 : (value.drop 8).take 11 = "example.com".data := by
      rw [hdrop8]; rfl
    have hhost : Uri.find_host value = some "example.com".data := by
      simp only [Uri.find_host, hhead, hsub]
      norm_num
      rw [hcolon]
      simp only [Nat.add_sub_cancel, hslice11]
      decide
    have htakeseg : (value.drop 8).take (ds.length + 12) = "example.com:".data ++ ds := by
      rw [hdrop8, show ("example.com:".data : List Char) ++ (ds ++ "/path?q=1".data) =
            ("example.com:".data ++ ds) ++ "/path?q=1".data from (List.append_assoc _ _ _).symm,
          show ds.length + 12 = ("example.com:".data ++ ds).length from by
            simp only [List.length_append, List.length_cons, List.length_nil]; omega]
      exact List.take_left _ _
    have hcolonseg : fCharIdx ':' ("example.com:".data ++ ds) = some 11 := by
      simp [fCharIdx]
    have hdrop20 : value.drop 20 = ds ++ "/path?q=1".data := rfl
    have htakeds : (ds ++ "/path?q=1".data).take ds.length = ds := List.take_left _ _
    have hport : Uri.find_port value = some (digitsVal ds) := by
      simp only [Uri.find_port, hsub]
      norm_num
      rw [hslashidx]
      simp only [Nat.add_sub_cancel, htakeseg, hcolonseg]
      norm_num
      rw [hdrop20, show ds.length + 12 + 8 - 20 = ds.length from by omega, htakeds]
      exact parseU16_all_digits ds h0 h1 h2
    have hdropstart : value.drop (ds.length + 12 + 8) = "/path?q=1".data := by
      rw [hassoc,
          show ds.length + 12 + 8 = ("https://example.com:".data ++ ds).length from by
            simp only [List.length_append, List.length_cons, List.length_nil]; omega]
      exact List.drop_left _ _
    have hdropq : value.drop (ds.length + 25 + 1) = "q=1".data := by
      rw [hval,
          show ds.length + 25 + 1 = ("https://example.com:".data).length + (ds.length + 6)
            from by
              simp only [List.length_cons, List.length_nil]; omega,
          hgen]
      rw [hgen ds "/path?q=1".data 6]
      rfl
    have hpathslice : Uri.slice_path value =
        some (some "/path".data, some "q=1".data, some "/path?q=1".data) := by
      simp only [Uri.slice_path, hhead, hsub]
      norm_num
      rw [hslashidx, hquestidx]
      rw [if_neg (show ¬ ('h' = '/') from by decide)]
      change (if ds.length + 12 + 8 ≤ ds.length + 25 then
          some (some ((value.drop (ds.length + 12 + 8)).take
                  (ds.length + 25 - (ds.length + 12 + 8))),
                some (value.drop (ds.length + 25 + 1)),
                some (value.drop (ds.length + 12 + 8)))
        else none) =
        some (some "/path".data, some "q=1".data, some "/path?q=1".data)
      rw [if_pos (show ds.length + 12 + 8 ≤ ds.length + 25 from by omega)]
      rw [show ds.length + 25 - (ds.length + 12 + 8) = 5 from by omega]
      rw [hdropstart, hdropq]
      rfl
    refine ⟨{ uri := value
              scheme := some "https://".data
              host := some "example.com".data
              port := some (digitsVal ds)
              path := some "/path".data
              query := some "q=1".data
              path_and_query := some "/path?q=1".data }, ?_, rfl, rfl, rfl⟩
    simp only [Uri.new, hpathslice, hscheme, hhost, hport]
  · decide

/-- Witness for C9 at the spec's own example input `https://example.com:8443/path?q=1`. -/
theorem c9_explicit_port_never_overridden_witness :
    (Uri.new "https://example.com:8443/path?q=1".data).map EUri.port = some (some 8443) ∧
    (Uri.new "https://example.com:8443/path?q=1".data).map EUri.kind =
      some .AbsoluteAddress := by
  obtain ⟨u, hu, hp, hs, hk⟩ :=
    c9_explicit_port_never_overridden.1 "8443".data (by decide) (by decide) (by decide)
  have e : "https://example.com:".data ++ ("8443".data ++ "/path?q=1".data) =
      "https://example.com:8443/path?q=1".data := by decide
  have ed : digitsVal "8443".data = 8443 := by decide
  rw [e] at hu
  rw [ed] at hp
  exact ⟨by rw [hu]; simp [hp], by rw [hu]; simp [hk]⟩

/-- Lookup after removal: the removed key reads as absent, all other keys are
untouched. -/
theorem hget_hremove (h : EHeaders) (k k' : List Char) :
    hget (hremove h k) k' =
      if lowerChars k' = lowerChars k then none else hget h k' := by
  induction h with
  | nil => simp [hget, hremove]
  | cons p t ih =>
    simp only [hremove]
    by_cases hpk : lowerChars p.1 = lowerChars k
    · rw [if_pos hpk, ih]
      by_cases hk : lowerChars k' = lowerChars k
      · rw [if_pos hk, if_pos hk]
      · have hpk' : ¬ lowerChars p.1 = lowerChars k' := fun hc => hk (hc.symm.trans hpk)
        rw [if_neg hk, if_neg hk]
        simp only [hget]
        rw [if_neg hpk']
    · rw [if_neg hpk]
      simp only [hget]
      by_cases hpq : lowerChars p.1 = lowerChars k'
      · have hk : ¬ lowerChars k' = lowerChars k := fun hc => hpk (hpq.trans hc)
        rw [if_pos hpq, if_neg hk, if_pos hpq]
      · rw [if_neg hpq, if_neg hpq, ih]

/-- Lookup after insertion: the inserted key reads the new value, all other
keys are untouched. -/
theorem hget_hinsert (h : EHeaders) (k v k' : List Char) :
    hget (hinsert h k v) k' =
      if lowerChars k' = lowerChars k then some v else hget h k' := by
  induction h with
  | nil =>
    simp only [hinsert, hget]
    by_cases hk : lowerChars k' = lowerChars k
    · rw [if_pos hk.symm, if_pos hk]
    · rw [if_neg (fun hc : lowerChars k = lowerChars k' => hk hc.symm), if_neg hk]
  | cons p t ih =>
    simp only [hinsert]
    by_cases hpk : lowerChars p.1 = lowerChars k
    · rw [if_pos hpk]
      simp only [hget]
      by_cases hk : lowerChars k' = lowerChars k
      · rw [if_pos (hpk.trans hk.symm), if_pos hk]
      · have hpk' : ¬ lowerChars p.1 = lowerChars k' := fun hc => hk (hc.symm.trans hpk)
        rw [if_neg hpk', if_neg hk, if_neg hpk']
    · rw [if_neg hpk]
      simp only [hget]
      by_cases hpq : lowerChars p.1 = lowerChars k'
      · have hk : ¬ lowerChars k' = lowerChars k := fun hc => hpk (hpq.trans hc)
        rw [if_pos hpq, if_neg hk, if_pos hpq]
      · rw [if_neg hpq, if_neg hpq, ih]

/-- Whenever `Uri::new` succeeds, the stored `uri` field is the input string. -/
theorem uri_new_uri_eq (pq : List Char) (u : EUri) (h : Uri.new pq = some u) :
    u.uri = pq := by
  unfold Uri.new at h
  cases hsp : Uri.slice_path pq with
  | none => rw [hsp] at h; exact absurd h (by simp)
  | some t =>
    obtain ⟨p, q, r⟩ := t
    rw [hsp] at h
    simp only [Option.some.injEq] at h
    rw [← h]

/-- A string starting with `/` always parses: `slice_path` takes the whole
string as the path segment, so the panicking slice cannot occur. -/
theorem uri_new_isSome_of_head_slash (pq : List Char) (h : pq.head? = some '/') :
    (Uri.new pq).isSome := by
  simp only [Uri.new, Uri.slice_path, h, if_pos]
  cases hq : fCharIdx '?' pq <;> simp

/-- C4 (amended): the outgoing request has method `GET`, target equal to the
origin-relative `path_and_query`, and the client's headers with `Range` removed
and `Host` set to the bare `host` component (not `host_and_port()`). -/
theorem c4_outgoing_request_host_only (client : EHttpRequestHeader)
    (host pq : List Char) (hpq : pq.head? = some '/') :
    ∃ r : EFetchRequestHeader, buildFetchRequest host pq client = some r ∧
      r.method = .Get ∧ r.request.uri = pq ∧
      (∀ k, hget r.headers k =
        if lowerChars k = lowerChars "Host".data then some host
        else if lowerChars k = lowerChars "Range".data then none
        else hget client.headers k) := by
  obtain ⟨u, hu⟩ := Option.isSome_iff_exists.mp (uri_new_isSome_of_head_slash pq hpq)
  have hb : buildFetchRequest host pq client =
      some { method := .Get
             request := u
             version := client.version
             headers := hinsert (hremove client.headers "Range".data) "Host".data host } := by
    simp only [buildFetchRequest, hu]
  refine ⟨_, hb, rfl, uri_new_uri_eq pq u hu, ?_⟩
  intro k
  rw [hget_hinsert, hget_hremove]

/-- C4 (counterexample): for the current URI `https://example.com:8443/p`,
`host_and_port()` is `example.com:8443` but the engine sets the `Host` header
from `uri.host` alone, giving `example.com`; so the built headers do not carry
`host_and_port()` as the claim states. -/
theorem c4_counterexample_host_without_port :
    (Uri.new "https://example.com:8443/p".data).map
        (fun u => (u.host, u.path_and_query, u.host_and_port)) =
      some (some "example.com".data, some "/p".data, some "example.com:8443".data) ∧
    (buildFetchRequest "example.com".data "/p".data
        { method := .Get
          request := "https://example.com:8443/p".data
          version := "HTTP/1.1".data
          headers := [("Range".data, "bytes=3-9".data)] }).map
        (fun r => hget r.headers "Host".data) = some (some "example.com".data) ∧
    some "example.com".data ≠ some "example.com:8443".data := by
  refine ⟨by decide, by decide, by decide⟩

/-- Witness for C4's amended theorem at a concrete client request. -/
theorem c4_outgoing_request_host_only_witness :
    ∃ r : EFetchRequestHeader,
      buildFetchRequest "example.com".data "/x".data
        { method := .Get
          request := "http://example.com/x".data
          version := "HTTP/1.1".data
          headers := [("Range".data, "bytes=0-5".data), ("Accept".data, "text".data)] }
        = some r ∧
      r.method = .Get ∧ r.request.uri = "/x".data ∧
      (∀ k, hget r.headers k =
        if lowerChars k = lowerChars "Host".data then some "example.com".data
        else if lowerChars k = lowerChars "Range".data then none
        else hget [("Range".data, "bytes=0-5".data), ("Accept".data, "text".data)] k) :=
  c4_outgoing_request_host_only
    { method := .Get
      request := "http://example.com/x".data
      version := "HTTP/1.1".data
      headers := [("Range".data, "bytes=0-5".data), ("Accept".data, "text".data)] }
    "example.com".data "/x".data (by decide)

example : Uri.new "http://example.com/a".data = some uriA := by decide

example : keep_alive_if clientKA = .KeepAlive := by decide

/-- A sink that is already dead stays dead for the rest of the copy. -/
theorem dualServe_file_stays_dead (ff cf : Nat → Bool) :
    ∀ (segs : List Nat) (i : Nat) (ws : Bool),
      (dualServe ff cf segs i false ws).write_file = false := by
  intro segs
  induction segs with
  | nil => intro i ws; rfl
  | cons s rest ih =>
    intro i ws
    simp only [dualServe]
    by_cases hws : ws
    · rw [if_neg (by simp [hws])]
      simpa using ih (i + 1) (ws && !cf i)
    · simp only [Bool.not_eq_true] at hws
      rw [if_pos (by simp [hws])]

/-- If the file sink is live and some segment's file write fails, the copy
ends with the file sink dead. -/
theorem dualServe_file_dies (ff cf : Nat → Bool) :
    ∀ (segs : List Nat) (i : Nat) (ws : Bool),
      (∃ j, j < segs.length ∧ ff (i + j) = true) →
      (dualServe ff cf segs i true ws).write_file = false := by
  intro segs
  induction segs with
  | nil =>
    intro i ws ⟨j, hj, _⟩
    exact absurd hj (by simp)
  | cons s rest ih =>
    intro i ws ⟨j, hj, hff⟩
    simp only [dualServe]
    rw [if_neg (by simp)]
    by_cases hf0 : ff i
    · simpa [hf0] using dualServe_file_stays_dead ff cf rest (i + 1) (ws && !cf i)
    · cases j with
      | zero => rw [Nat.add_zero] at hff; exact absurd hff (by simp [hf0])
      | succ j =>
        have : ∃ j2, j2 < rest.length ∧ ff (i + 1 + j2) = true :=
          ⟨j, by simpa using hj, by rw [show i + 1 + j = i + (j + 1) from by omega]; exact hff⟩
        simpa [hf0] using ih (i + 1) (ws && !cf i) this

/-- Reduction of `fetch` on a 200 response with fixed-length framing: all
guards pass, the flight is registered as `Length n`, the body is copied by the
dual-sink collaborator, and the post-copy epilogue decides the outcome. -/
theorem fetchE_200_length (env : FetchEnv) (flights0 : List (List Char × FlightStateE))
    (client : EHttpRequestHeader) (uri : EUri) (cachePath h pq : List Char)
    (resp : EHttpResponseHeader) (cl : List Char) (n : Nat)
    (hh : uri.host = some h) (hq : uri.path_and_query = some pq)
    (hs : pq.head? = some '/')
    (h1 : env.genOk = true) (h2 : env.originWriteOk = true)
    (hresp : env.originResponse = some resp) (h200 : resp.status = 200)
    (h3 : env.parentOk = true) (h4 : env.createDirOk = true)
    (h5 : env.createFileOk = true) (h6 : env.clientHeaderWriteOk = true)
    (hTE : hget resp.headers "Transfer-Encoding".data = none)
    (hCL : hget resp.headers "Content-Length".data = some cl)
    (hn : parseU64 cl = some n) :
    fetchE env flights0 client uri cachePath =
      some (fetch_finish client
        (dualServe env.fileFail env.clientFail env.bodySegs 0
          (fetch_cache_policy resp).1 (fetch_cache_policy resp).2)
        (takeoff flights0 cachePath (.Length n)) true) := by
  obtain ⟨u, hu⟩ := Option.isSome_iff_exists.mp (uri_new_isSome_of_head_slash pq hs)
  simp only [fetchE, hh, hq, buildFetchRequest, hu, h1, h2, hresp, h200, h3, h4, h5,
    h6, hTE, hCL, hn]
  simp

/-- Reduction of `fetch` on a 200 response with chunked framing. -/
theorem fetchE_200_chunked (env : FetchEnv) (flights0 : List (List Char × FlightStateE))
    (client : EHttpRequestHeader) (uri : EUri) (cachePath h pq : List Char)
    (resp : EHttpResponseHeader) (v : List Char)
    (hh : uri.host = some h) (hq : uri.path_and_query = some pq)
    (hs : pq.head? = some '/')
    (h1 : env.genOk = true) (h2 : env.originWriteOk = true)
    (hresp : env.originResponse = some resp) (h200 : resp.status = 200)
    (h3 : env.parentOk = true) (h4 : env.createDirOk = true)
    (h5 : env.createFileOk = true) (h6 : env.clientHeaderWriteOk = true)
    (hTE : hget resp.headers "Transfer-Encoding".data = some v)
    (hch : lowerChars v = "chunked".data) :
    fetchE env flights0 client uri cachePath =
      some (fetch_finish client
        (dualServe env.fileFail env.clientFail env.bodySegs 0
          (fetch_cache_policy resp).1 (fetch_cache_policy resp).2)
        (takeoff flights0 cachePath .Chunks) true) := by
  obtain ⟨u, hu⟩ := Option.isSome_iff_exists.mp (uri_new_isSome_of_head_slash pq hs)
  simp only [fetchE, hh, hq, buildFetchRequest, hu, h1, h2, hresp, h200, h3, h4, h5,
    h6, hTE, hch]
  simp

/-- C6: when the cache-file sink dies during the body copy of a persisted 200
transfer (either framing), the partial cache file does not remain at the
cache path and the client connection is closed. -/
theorem c6_file_sink_death_removes_file_and_closes (env : FetchEnv)
    (flights0 : List (List Char × FlightStateE)) (client : EHttpRequestHeader)
    (uri : EUri) (cachePath h pq : List Char) (resp : EHttpResponseHeader)
    (hh : uri.host = some h) (hq : uri.path_and_query = some pq)
    (hs : pq.head? = some '/')
    (h1 : env.genOk = true) (h2 : env.originWriteOk = true)
    (hresp : env.originResponse = some resp) (h200 : resp.status = 200)
    (h3 : env.parentOk = true) (h4 : env.createDirOk = true)
    (h5 : env.createFileOk = true) (h6 : env.clientHeaderWriteOk = true)
    (hframe : (∃ v, hget resp.headers "Transfer-Encoding".data = some v ∧
                lowerChars v = "chunked".data) ∨
              (hget resp.headers "Transfer-Encoding".data = none ∧
                ∃ cl n, hget resp.headers "Content-Length".data = some cl ∧
                  parseU64 cl = some n))
    (hpol : fetch_cache_policy resp = (true, true))
    (hdie : ∃ j, j < env.bodySegs.length ∧ env.fileFail j = true) :
    ∃ out : FetchOut, fetchE env flights0 client uri cachePath = some out ∧
      out.fileExists = false ∧ out.ret = .Close := by
  obtain ⟨j, hjl, hjf⟩ := hdie
  have hdead : ∀ ws, (dualServe env.fileFail env.clientFail env.bodySegs 0
      (fetch_cache_policy resp).1 ws).write_file = false := by
    intro ws
    rw [hpol]
    exact dualServe_file_dies env.fileFail env.clientFail env.bodySegs 0 ws
      ⟨j, hjl, by simpa using hjf⟩
  rcases hframe with ⟨v, hTE, hch⟩ | ⟨hTE, cl, n, hCL, hn⟩
  · refine ⟨_, fetchE_200_chunked env flights0 client uri cachePath h pq resp v
      hh hq hs h1 h2 hresp h200 h3 h4 h5 h6 hTE hch, ?_, ?_⟩ <;>
      simp [fetch_finish, hdead]
  · refine ⟨_, fetchE_200_length env flights0 client uri cachePath h pq resp cl n
      hh hq hs h1 h2 hresp h200 h3 h4 h5 h6 hTE hCL hn, ?_, ?_⟩ <;>
      simp [fetch_finish, hdead]

/-- Witness for C6: a 4-byte fixed-length body in two segments whose second
file write fails. -/
theorem c6_file_sink_death_removes_file_and_closes_witness :
    ∃ out : FetchOut,
      fetchE { envBase with
                 originResponse := some { status := 200
                                          headers := [("Content-Length".data, "4".data)] }
                 bodySegs := [2, 2]
                 fileFail := fun j => j == 1 }
        [] clientKA uriA "k".data = some out ∧
      out.fileExists = false ∧ out.ret = .Close :=
  c6_file_sink_death_removes_file_and_closes _ [] clientKA uriA
    "k".data "example.com".data "/a".data _
    rfl rfl rfl rfl rfl rfl rfl rfl rfl rfl rfl
    (Or.inr ⟨rfl, "4".data, 4, rfl, by decide⟩)
    (by decide)
    ⟨1, by decide, by decide⟩

/-- C10: a 200 response carrying a `Transfer-Encoding` other than `chunked`
(case-insensitively) makes the engine answer 400 Bad Request after the
already-sent 200 header, register no flight, and copy no body bytes to either
sink. -/
theorem c10_non_chunked_rejected_no_flight (env : FetchEnv)
    (flights0 : List (List Char × FlightStateE)) (client : EHttpRequestHeader)
    (uri : EUri) (cachePath h pq : List Char) (resp : EHttpResponseHeader)
    (v : List Char)
    (hh : uri.host = some h) (hq : uri.path_and_query = some pq)
    (hs : pq.head? = some '/')
    (h1 : env.genOk = true) (h2 : env.originWriteOk = true)
    (hresp : env.originResponse = some resp) (h200 : resp.status = 200)
    (h3 : env.parentOk = true) (h4 : env.createDirOk = true)
    (h5 : env.createFileOk = true) (h6 : env.clientHeaderWriteOk = true)
    (hTE : hget resp.headers "Transfer-Encoding".data = some v)
    (hnc : ¬ lowerChars v = "chunked".data) :
    fetchE env flights0 client uri cachePath =
      some (respond_with [200] (keep_alive_if client) 400 flights0 true) := by
  obtain ⟨u, hu⟩ := Option.isSome_iff_exists.mp (uri_new_isSome_of_head_slash pq hs)
  simp only [fetchE, hh, hq, buildFetchRequest, hu, h1, h2, hresp, h200, h3, h4, h5,
    h6, hTE]
  rw [if_neg hnc]
  simp

/-- Witness for C10 with `Transfer-Encoding: GZip`. -/
theorem c10_non_chunked_rejected_no_flight_witness :
    fetchE { envBase with
               originResponse := some { status := 200
                                        headers := [("Transfer-Encoding".data, "GZip".data)] }
               bodySegs := [7] }
      [("other".data, .Chunks)] clientKA uriA "k".data =
      some (respond_with [200] (keep_alive_if clientKA) 400 [("other".data, .Chunks)] true) :=
  c10_non_chunked_rejected_no_flight _ [("other".data, .Chunks)] clientKA uriA
    "k".data "example.com".data "/a".data _ "GZip".data
    rfl rfl rfl rfl rfl rfl rfl rfl rfl rfl rfl rfl (by decide)

/-- C5: on a 200 response with `Cache-Control: no-store` the body is indeed
not persisted (0 file bytes) and is streamed in full to the client, but the
engine then deletes the cache file it had created and returns `Close`, not the
client-semantics disposition `keep_alive_if` (which is `KeepAlive` here); with
no `Cache-Control` header the body is persisted and streamed to both sinks
and the engine does return `keep_alive_if`. -/
theorem c5_no_store_closes_instead_of_keep_alive :
    fetchE { envBase with
               originResponse := some { status := 200
                                        headers := [("Cache-Control".data, "no-store".data),
                                                    ("Content-Length".data, "4".data)] }
               bodySegs := [4] }
      [] clientKA uriA "k".data =
      some { ret := .Close
             sent := [200]
             flights := [("k".data, .Length 4)]
             fileExists := false
             fileBytes := 0
             clientBodyBytes := 4
             passedThrough := false } ∧
    keep_alive_if clientKA = .KeepAlive ∧
    fetchE { envBase with
               originResponse := some { status := 200
                                        headers := [("Content-Length".data, "4".data)] }
               bodySegs := [4] }
      [] clientKA uriA "k".data =
      some { ret := .KeepAlive
             sent := [200]
             flights := [("k".data, .Length 4)]
             fileExists := true
             fileBytes := 4
             clientBodyBytes := 4
             passedThrough := false } := by
  refine ⟨by decide, by decide, by decide⟩

/-- C2: the status dispatch on fetch.rs line 380 uses the exclusive Rust range
patterns `301..303 | 307..308`, which match only 301, 302 and 307.  A 303 or
308 response — even with a `Location` header — is therefore forwarded verbatim
to the client (pass-through), never turned into the `Redirect` signal, while
301 does yield `Redirect` and a Location-less 307 yields 400 as the claim
describes. -/
theorem c2_303_and_308_passed_through_not_redirected :
    fetchE { envBase with
               originResponse := some { status := 303
                                        headers := [("Location".data,
                                                     "http://example.org/b".data)] } }
      [] clientKA uriA "k".data =
      some { ret := .KeepAlive, sent := [303], flights := [], fileExists := false
             fileBytes := 0, clientBodyBytes := 0, passedThrough := true } ∧
    fetchE { envBase with
               originResponse := some { status := 308
                                        headers := [("Location".data,
                                                     "http://example.org/b".data)] } }
      [] clientKA uriA "k".data =
      some { ret := .KeepAlive, sent := [308], flights := [], fileExists := false
             fileBytes := 0, clientBodyBytes := 0, passedThrough := true } ∧
    fetchE { envBase with
               originResponse := some { status := 301
                                        headers := [("Location".data,
                                                     "http://example.org/b".data)] } }
      [] clientKA uriA "k".data =
      some { ret := .Redirect "http://example.org/b".data, sent := [], flights := []
             fileExists := false, fileBytes := 0, clientBodyBytes := 0
             passedThrough := false } ∧
    fetchE { envBase with originResponse := some { status := 307, headers := [] } }
      [] clientKA uriA "k".data =
      some (respond_with [] (keep_alive_if clientKA) 400 [] false) := by
  refine ⟨by decide, by decide, by decide, by decide⟩

/-- C3: the loop keeps an ordered history seeded with the original target; a
redirect is rejected with 500 and the connection closed when accepting it
would exceed 5 hops (`redirects.len() > 5`) or when its target was already
visited; an origin that always redirects to a fresh target is stopped with
500/close after exactly 5 accepted hops (history of 6 targets, 6 fetches);
and a redirect back to an already-visited target is rejected after a single
fetch, never retried. -/
theorem c3_redirect_bound_and_cycle_rejection :
    (∀ (origin : List Char → ConnectionReturnE) (rOk : List Char → Bool)
       (rs : List (List Char)) (r : List Char),
       origin (rs.getLastD []) = .Redirect r →
       rs.length > 5 ∨ r ∈ rs →
       serveLoop origin rOk rs =
         { ret := .Close, sent := [500], redirects := rs, fetches := 1 }) ∧
    serveLoop (fun u => .Redirect (u ++ "a".data)) (fun _ => true) ["x".data] =
      { ret := .Close
        sent := [500]
        redirects := ["x".data, "xa".data, "xaa".data, "xaaa".data, "xaaaa".data,
                      "xaaaaa".data]
        fetches := 6 } ∧
    serveLoop (fun _ => .Redirect "x".data) (fun _ => true) ["x".data] =
      { ret := .Close, sent := [500], redirects := ["x".data], fetches := 1 } := by
  refine ⟨?_, ?_, ?_⟩
  · intro origin rOk rs r ho hrej
    rw [serveLoop, ho]
    by_cases h5 : rs.length > 5
    · simp [h5]
    · rcases hrej with h | hmem
      · exact absurd h h5
      · simp [h5, hmem]
  · simp [serveLoop]
  · simp [serveLoop]

/-- Witness for C3's general rejection conjunct: a seventh redirect (history
already 6 long) is rejected with 500/close, and a cycling redirect likewise. -/
theorem c3_redirect_bound_and_cycle_rejection_witness :
    serveLoop (fun _ => .Redirect "y".data) (fun _ => true)
      ["a".data, "b".data, "c".data, "d".data, "e".data, "f".data] =
      { ret := .Close
        sent := [500]
        redirects := ["a".data, "b".data, "c".data, "d".data, "e".data, "f".data]
        fetches := 1 } :=
  c3_redirect_bound_and_cycle_rejection.1 (fun _ => .Redirect "y".data) (fun _ => true)
    ["a".data, "b".data, "c".data, "d".data, "e".data, "f".data] "y".data rfl
    (Or.inl (by decide))

/-- Every attempt logged by the copy loop concerns segment `i` or later. -/
theorem mainCopy_idx_ge (ff cf : Nat → Bool) :
    ∀ (segs : List Nat) (i : Nat) (wf ws : Bool),
      ∀ e ∈ (mainCopy ff cf segs i wf ws).evs, i ≤ e.idx := by
  intro segs
  induction segs with
  | nil => intro i wf ws e he; simp [mainCopy] at he
  | cons s rest ih =>
    intro i wf ws e he
    match wf, ws with
    | true, true =>
      simp only [mainCopy, List.mem_cons] at he
      rcases he with rfl | rfl | he
      · exact Nat.le_refl _
      · exact Nat.le_refl _
      · exact Nat.le_of_succ_le (ih (i + 1) _ _ e he)
    | true, false =>
      simp only [mainCopy] at he
      by_cases hf : ff i
      · simp only [if_pos hf, List.mem_singleton] at he
        subst he; exact Nat.le_refl _
      · simp only [if_neg hf, List.mem_cons] at he
        rcases he with rfl | he
        · exact Nat.le_refl _
        · exact Nat.le_of_succ_le (ih (i + 1) _ _ e he)
    | false, true =>
      simp only [mainCopy] at he
      by_cases hc : cf i
      · simp only [if_pos hc, List.mem_singleton] at he
        subst he; exact Nat.le_refl _
      · simp only [if_neg hc, List.mem_cons] at he
        rcases he with rfl | he
        · exact Nat.le_refl _
        · exact Nat.le_of_succ_le (ih (i + 1) _ _ e he)
    | false, false => simp [mainCopy] at he

/-- With the file sink dead, the loop only ever touches the client sink. -/
theorem mainCopy_file_dead_only_client (ff cf : Nat → Bool) :
    ∀ (segs : List Nat) (i : Nat),
      ∀ e ∈ (mainCopy ff cf segs i false true).evs, e.sink = .client := by
  intro segs
  induction segs with
  | nil => intro i e he; simp [mainCopy] at he
  | cons s rest ih =>
    intro i e he
    simp only [mainCopy] at he
    by_cases hc : cf i
    · simp only [if_pos hc, List.mem_singleton] at he
      subst he; rfl
    · simp only [if_neg hc, List.mem_cons] at he
      rcases he with rfl | he
      · rfl
      · exact ih (i + 1) e he

/-- With the client sink dead, the loop only ever touches the file sink. -/
theorem mainCopy_client_dead_only_file (ff cf : Nat → Bool) :
    ∀ (segs : List Nat) (i : Nat),
      ∀ e ∈ (mainCopy ff cf segs i true false).evs, e.sink = .file := by
  intro segs
  induction segs with
  | nil => intro i e he; simp [mainCopy] at he
  | cons s rest ih =>
    intro i e he
    simp only [mainCopy] at he
    by_cases hf : ff i
    · simp only [if_pos hf, List.mem_singleton] at he
      subst he; rfl
    · simp only [if_neg hf, List.mem_cons] at he
      rcases he with rfl | he
      · rfl
      · exact ih (i + 1) e he

/-- Prepending an attempt to a disciplined log stays disciplined when a
failing head has no later same-sink attempts behind it and the head is not
later than any failure behind it. -/
theorem marksDead_cons (e : WriteEv) (evs : List WriteEv)
    (h1 : marksDeadBeforeNext evs)
    (h2 : e.ok = false → ∀ e2 ∈ evs, e2.sink = e.sink → e2.idx ≤ e.idx)
    (h3 : ∀ e1 ∈ evs, e1.ok = false → e.idx ≤ e1.idx) :
    marksDeadBeforeNext (e :: evs) := by
  intro a ha b hb hs hf
  rcases List.mem_cons.mp ha with hae | ham
  · subst hae
    rcases List.mem_cons.mp hb with hbe | hbm
    · subst hbe; exact Nat.le_refl _
    · exact h2 hf b hbm hs.symm
  · rcases List.mem_cons.mp hb with hbe | hbm
    · subst hbe; exact h3 a ham hf
    · exact h1 a ham b hbm hs hf

/-- A single-sink file run is disciplined: a failing write ends the loop, so
nothing is attempted after it. -/
theorem mainCopy_tf_marks (ff cf : Nat → Bool) :
    ∀ (segs : List Nat) (i : Nat),
      marksDeadBeforeNext (mainCopy ff cf segs i true false).evs := by
  intro segs
  induction segs with
  | nil => intro i e1 he1; simp [mainCopy] at he1
  | cons s rest ih =>
    intro i
    simp only [mainCopy]
    by_cases hf : ff i
    · simp only [if_pos hf]
      intro e1 he1 e2 he2 hs hfail
      simp only [List.mem_singleton] at he1 he2
      subst he1; subst he2; exact Nat.le_refl _
    · simp only [if_neg hf]
      refine marksDead_cons _ _ (ih (i + 1)) (by simp) ?_
      intro e1 he1 hfail
      exact Nat.le_of_succ_le (mainCopy_idx_ge ff cf rest (i + 1) true false e1 he1)

/-- A single-sink client run is disciplined. -/
theorem mainCopy_ft_marks (ff cf : Nat → Bool) :
    ∀ (segs : List Nat) (i : Nat),
      marksDeadBeforeNext (mainCopy ff cf segs i false true).evs := by
  intro segs
  induction segs with
  | nil => intro i e1 he1; simp [mainCopy] at he1
  | cons s rest ih =>
    intro i
    simp only [mainCopy]
    by_cases hc : cf i
    · simp only [if_pos hc]
      intro e1 he1 e2 he2 hs hfail
      simp only [List.mem_singleton] at he1 he2
      subst he1; subst he2; exact Nat.le_refl _
    · simp only [if_neg hc]
      refine marksDead_cons _ _ (ih (i + 1)) (by simp) ?_
      intro e1 he1 hfail
      exact Nat.le_of_succ_le (mainCopy_idx_ge ff cf rest (i + 1) false true e1 he1)

/-- When the two sinks never fail on the same segment, the main.rs loop obeys
the marking discipline: a failed sink is never attempted again. -/
theorem mainCopy_tt_marks (ff cf : Nat → Bool)
    (hdist : ∀ j, ¬(ff j = true ∧ cf j = true)) :
    ∀ (segs : List Nat) (i : Nat),
      marksDeadBeforeNext (mainCopy ff cf segs i true true).evs := by
  intro segs
  induction segs with
  | nil => intro i e1 he1; simp [mainCopy] at he1
  | cons s rest ih =>
    intro i
    by_cases hf : ff i
    · have hc : cf i = false := by
        have : ¬ cf i = true := fun h => hdist i ⟨hf, h⟩
        simpa using this
      have hevs : (mainCopy ff cf (s :: rest) i true true).evs =
          ⟨i, .file, false⟩ :: ⟨i, .client, true⟩ ::
            (mainCopy ff cf rest (i + 1) false true).evs := by
        simp [mainCopy, hf, hc]
      rw [hevs]
      refine marksDead_cons _ _ ?_ ?_ ?_
      · refine marksDead_cons _ _ (mainCopy_ft_marks ff cf rest (i + 1)) (by simp) ?_
        intro e1 he1 hfail
        exact Nat.le_of_succ_le (mainCopy_idx_ge ff cf rest (i + 1) false true e1 he1)
      · intro _ e2 he2 hsink
        rcases List.mem_cons.mp he2 with hbe | hbm
        · subst hbe; exact Nat.le_refl _
        · have hcl := mainCopy_file_dead_only_client ff cf rest (i + 1) e2 hbm
          rw [hcl] at hsink
          simp at hsink
      · intro e1 he1 hfail
        rcases List.mem_cons.mp he1 with hbe | hbm
        · subst hbe; simp at hfail
        · exact Nat.le_of_succ_le (mainCopy_idx_ge ff cf rest (i + 1) false true e1 hbm)
    · by_cases hc : cf i
      · have hf0 : ff i = false := by simpa using hf
        have hevs : (mainCopy ff cf (s :: rest) i true true).evs =
            ⟨i, .file, true⟩ :: ⟨i, .client, false⟩ ::
              (mainCopy ff cf rest (i + 1) true false).evs := by
          simp [mainCopy, hf0, hc]
        rw [hevs]
        refine marksDead_cons _ _ ?_ (by simp) ?_
        · refine marksDead_cons _ _ (mainCopy_tf_marks ff cf rest (i + 1)) ?_ ?_
          · intro _ e2 he2 hsink
            have hfl := mainCopy_client_dead_only_file ff cf rest (i + 1) e2 he2
            rw [hfl] at hsink
            simp at hsink
          · intro e1 he1 hfail
            exact Nat.le_of_succ_le (mainCopy_idx_ge ff cf rest (i + 1) true false e1 he1)
        · intro e1 he1 hfail
          rcases List.mem_cons.mp he1 with hbe | hbm
          · subst hbe; exact Nat.le_refl _
          · exact Nat.le_of_succ_le (mainCopy_idx_ge ff cf rest (i + 1) true false e1 hbm)
      · have hf0 : ff i = false := by simpa using hf
        have hc0 : cf i = false := by simpa using hc
        have hevs : (mainCopy ff cf (s :: rest) i true true).evs =
            ⟨i, .file, true⟩ :: ⟨i, .client, true⟩ ::
              (mainCopy ff cf rest (i + 1) true true).evs := by
          simp [mainCopy, hf0, hc0]
        rw [hevs]
        refine marksDead_cons _ _ ?_ (by simp) ?_
        · refine marksDead_cons _ _ (ih (i + 1)) (by simp) ?_
          intro e1 he1 hfail
          exact Nat.le_of_succ_le (mainCopy_idx_ge ff cf rest (i + 1) true true e1 he1)
        · intro e1 he1 hfail
          rcases List.mem_cons.mp he1 with hbe | hbm
          · subst hbe; simp at hfail
          · exact Nat.le_of_succ_le (mainCopy_idx_ge ff cf rest (i + 1) true true e1 hbm)

/-- If the file sink never fails, every byte reaches the cache file no matter
what the client sink does. -/
theorem mainCopy_fileBytes_complete (cf : Nat → Bool) :
    ∀ (segs : List Nat) (i : Nat) (ws : Bool),
      (mainCopy (fun _ => false) cf segs i true ws).fileBytes = segs.sum := by
  intro segs
  induction segs with
  | nil => intro i ws; rfl
  | cons s rest ih =>
    intro i ws
    cases ws <;> simp [mainCopy, ih]

/-- If the file sink never fails, it stays live to the end. -/
theorem mainCopy_file_alive (cf : Nat → Bool) :
    ∀ (segs : List Nat) (i : Nat) (ws : Bool),
      (mainCopy (fun _ => false) cf segs i true ws).write_file = true := by
  intro segs
  induction segs with
  | nil => intro i ws; rfl
  | cons s rest ih =>
    intro i ws
    cases ws <;> simp [mainCopy, ih]

/-- If the client sink never fails, every byte reaches the client no matter
what the file sink does. -/
theorem mainCopy_clientBytes_complete (ff : Nat → Bool) :
    ∀ (segs : List Nat) (i : Nat) (wf : Bool),
      (mainCopy ff (fun _ => false) segs i wf true).clientBytes = segs.sum := by
  intro segs
  induction segs with
  | nil => intro i wf; rfl
  | cons s rest ih =>
    intro i wf
    cases wf <;> simp [mainCopy, ih]

/-- If the client sink never fails, it stays live to the end. -/
theorem mainCopy_client_alive (ff : Nat → Bool) :
    ∀ (segs : List Nat) (i : Nat) (wf : Bool),
      (mainCopy ff (fun _ => false) segs i wf true).write_stream = true := by
  intro segs
  induction segs with
  | nil => intro i wf; rfl
  | cons s rest ih =>
    intro i wf
    cases wf <;> simp [mainCopy, ih]

/-- Once both sinks are dead the loop stops at once: no bytes, no attempts. -/
theorem mainCopy_both_dead_stops (ff cf : Nat → Bool) :
    ∀ (segs : List Nat) (i : Nat),
      mainCopy ff cf segs i false false = ⟨false, false, 0, 0, []⟩ := by
  intro segs i
  cases segs <;> rfl

/-- C7 (counterexample): when both sinks fail on the same segment, the
`(Err(_), _)` arm of the main.rs loop clears only `write_file`; the client
sink's failure is not marked (`write_stream` is still true) and the very next
segment is attempted on the already-failed client sink, violating the claim's
marking discipline. -/
theorem c7_counterexample_same_segment_double_failure :
    ¬ marksDeadBeforeNext
        (mainCopy (fun _ => true) (fun _ => true) [1, 1] 0 true true).evs ∧
    (mainCopy (fun _ => true) (fun _ => true) [1, 1] 0 true true).write_stream
      = true := by
  exact ⟨by decide, by decide⟩

/-- C7 (amended): the main.rs dual-sink loop tracks the two sinks
independently and (1) marks a failed sink dead before the next segment is
attempted on it provided the two sinks do not fail on the same segment (when
both fail together only the file sink is marked and one further client write
is attempted before the loop stops); (2) if the client sink dies, the whole
body still reaches the cache file, whose byte count equals the total body
size; (3) with both sinks dead the copy stops immediately; (4) if the file
sink dies, the whole body still reaches the client. -/
theorem c7_dual_sink_liveness_amended :
    (∀ (ff cf : Nat → Bool), (∀ j, ¬(ff j = true ∧ cf j = true)) →
      ∀ segs : List Nat,
        marksDeadBeforeNext (mainCopy ff cf segs 0 true true).evs) ∧
    (∀ (cf : Nat → Bool) (segs : List Nat),
      (mainCopy (fun _ => false) cf segs 0 true true).fileBytes = segs.sum ∧
      (mainCopy (fun _ => false) cf segs 0 true true).write_file = true) ∧
    (∀ (ff cf : Nat → Bool) (segs : List Nat) (i : Nat),
      mainCopy ff cf segs i false false = ⟨false, false, 0, 0, []⟩) ∧
    (∀ (ff : Nat → Bool) (segs : List Nat),
      (mainCopy ff (fun _ => false) segs 0 true true).clientBytes = segs.sum ∧
      (mainCopy ff (fun _ => false) segs 0 true true).write_stream = true) :=
  ⟨fun ff cf hdist segs => mainCopy_tt_marks ff cf hdist segs 0,
   fun cf segs => ⟨mainCopy_fileBytes_complete cf segs 0 true,
                   mainCopy_file_alive cf segs 0 true⟩,
   fun ff cf segs i => mainCopy_both_dead_stops ff cf segs i,
   fun ff segs => ⟨mainCopy_clientBytes_complete ff segs 0 true,
                   mainCopy_client_alive ff segs 0 true⟩⟩

/-- Witness for C7's amended marking discipline: file fails on segment 0,
client on segment 1 (never together). -/
theorem c7_dual_sink_liveness_amended_witness :
    marksDeadBeforeNext
      (mainCopy (fun j => j == 0) (fun j => j == 1) [1, 1, 1] 0 true true).evs :=
  c7_dual_sink_liveness_amended.1 (fun j => j == 0) (fun j => j == 1)
    (fun j h => by simp at h; omega) [1, 1, 1]

/-- Takeoff keeps the single-entry-per-key registry shape. -/
theorem takeoff_preserves_single (key : List Char) (st : FlightStateE)
    (reg : List (List Char × FlightStateE))
    (h : reg.length ≤ 1 ∧ ∀ p ∈ reg, p.1 = key) :
    (takeoff reg key st).length ≤ 1 ∧ ∀ p ∈ takeoff reg key st, p.1 = key := by
  obtain ⟨hlen, hall⟩ := h
  cases reg with
  | nil => exact ⟨by simp [takeoff], by simp [takeoff]⟩
  | cons p t =>
    have hp : p.1 = key := hall p (List.mem_cons_self p t)
    have ht : t = [] := by
      cases t with
      | nil => rfl
      | cons q u => simp at hlen
    subst ht
    refine ⟨?_, ?_⟩ <;> simp [takeoff, hp]

/-- Retirement keeps the single-entry-per-key registry shape. -/
theorem retire_preserves_single (key : List Char)
    (reg : List (List Char × FlightStateE))
    (h : reg.length ≤ 1 ∧ ∀ p ∈ reg, p.1 = key) :
    (retire reg key).length ≤ 1 ∧ ∀ p ∈ retire reg key, p.1 = key := by
  obtain ⟨hlen, hall⟩ := h
  cases reg with
  | nil => exact ⟨by simp [retire], by simp [retire]⟩
  | cons p t =>
    have hp : p.1 = key := hall p (List.mem_cons_self p t)
    have ht : t = [] := by
      cases t with
      | nil => rfl
      | cons q u => simp at hlen
    subst ht
    refine ⟨?_, ?_⟩ <;> simp [retire, hp]

/-- C8 (counterexample): the claim that at most one origin fetch per key is
ever in flight is false — both tasks can hold open origin connections for the
same key at once, because fetch.rs connects (lines 34-63) before any registry
interaction (takeoff happens only at lines 277-331, after the origin's
response header arrives). -/
theorem c8_counterexample_two_simultaneous_origin_fetches :
    ¬ (∀ s : FSys,
        Relation.ReflTransGen (FStep "k".data .Chunks .Chunks) ⟨.idle, .idle, []⟩ s →
        ¬ (originConn s.t1 = true ∧ originConn s.t2 = true)) := by
  intro h
  exact h ⟨.connected, .connected, []⟩
    (Relation.ReflTransGen.tail
      (Relation.ReflTransGen.single (FStep.connect1 .idle []))
      (FStep.connect2 .connected []))
    ⟨rfl, rfl⟩

/-- C8 (amended): the takeoff/retirement protocol keeps at most one registered
flight per key at every reachable instant, but it does not prevent two
simultaneous origin connections for the same key: a state with both origin
connections open (and the registry still empty) is reachable. -/
theorem c8_registry_single_flight_amended (key : List Char) (st1 st2 : FlightStateE) :
    (∀ s : FSys,
      Relation.ReflTransGen (FStep key st1 st2) ⟨.idle, .idle, []⟩ s →
      s.reg.length ≤ 1 ∧ ∀ p ∈ s.reg, p.1 = key) ∧
    (∃ s : FSys,
      Relation.ReflTransGen (FStep key st1 st2) ⟨.idle, .idle, []⟩ s ∧
      originConn s.t1 = true ∧ originConn s.t2 = true ∧ s.reg = []) := by
  constructor
  · intro s h
    induction h with
    | refl => exact ⟨by simp, by simp⟩
    | tail hsteps hstep ih =>
      cases hstep with
      | connect1 p2 reg => exact ih
      | connect2 p1 reg => exact ih
      | takeoff1 p2 reg => exact takeoff_preserves_single key st1 reg ih
      | takeoff2 p1 reg => exact takeoff_preserves_single key st2 reg ih
      | land1 p2 reg => exact retire_preserves_single key reg ih
      | land2 p1 reg => exact retire_preserves_single key reg ih
  · exact ⟨⟨.connected, .connected, []⟩,
      Relation.ReflTransGen.tail
        (Relation.ReflTransGen.single (FStep.connect1 .idle []))
        (FStep.connect2 .connected []),
      rfl, rfl, rfl⟩

/-- Witness for C8's amended theorem: after one task connects and takes off,
the registry holds exactly its single entry. -/
theorem c8_registry_single_flight_amended_witness :
    (⟨.tookOff, .idle, takeoff [] "k".data (.Length 7)⟩ : FSys).reg.length ≤ 1 ∧
    ∀ p ∈ (⟨.tookOff, .idle, takeoff [] "k".data (.Length 7)⟩ : FSys).reg,
      p.1 = "k".data :=
  (c8_registry_single_flight_amended "k".data (.Length 7) (.Length 7)).1
    ⟨.tookOff, .idle, takeoff [] "k".data (.Length 7)⟩
    (Relation.ReflTransGen.tail
      (Relation.ReflTransGen.single (FStep.connect1 .idle []))
      (FStep.takeoff1 .idle []))
